import Mathlib

/-!
Shallow embedding of the geometric core of the Layout-App repository
(`src/utils/geometry.js`): the deterministic RNG, rectangle builder, grid
sampler, grid snapper, layout generator, layout validator and heat-field
generator, together with theorems about the behaviour the specification
claims.

JavaScript numbers are idealised as rationals (`ℚ`); the 32-bit integer
pipeline of the `mulberry32` generator is embedded exactly over `ℕ` with
explicit `% 2 ^ 32` where the JS bitwise coercions truncate.  Calls into the
third-party Turf.js geometry library are abstracted as fields of a `GeoOps`
record: the control flow of the repository's own code is embedded verbatim
over those operations, and concrete instances of `GeoOps` are supplied for
witnesses and counterexamples.  A JS function that can throw on degenerate
geometry is embedded in `Except`.
-/

namespace LayoutApp

/-- A `[lng, lat]` coordinate pair in degrees (rational idealisation of the
JS floats). -/
structure LngLat where
  lng : ℚ
  lat : ℚ
deriving DecidableEq, Repr

/-- A GeoJSON property value: the repository only stores strings
(`role`, `type`) and numbers (`value`). -/
inductive PropVal where
  | str (s : String)
  | num (q : ℚ)
deriving DecidableEq, Repr

/-- GeoJSON geometries handled by the repository.  A `geometryCollection`'s
members are never inspected by the embedded code (only its `type` tag is
tested, in `generateBlocks`), so they are not carried. -/
inductive Geometry where
  | point (c : LngLat)
  | lineString (cs : List LngLat)
  | polygon (rings : List (List LngLat))
  | multiPolygon (ps : List (List (List LngLat)))
  | geometryCollection
deriving DecidableEq, Repr

/-- The `geometry.type` tag of a GeoJSON geometry. -/
inductive GeomTag where
  | point
  | lineString
  | polygon
  | multiPolygon
  | geometryCollection
deriving DecidableEq, Repr

/-- The `type` string of a geometry, as compared by the JS code. -/
def Geometry.tag : Geometry → GeomTag
  | .point _ => .point
  | .lineString _ => .lineString
  | .polygon _ => .polygon
  | .multiPolygon _ => .multiPolygon
  | .geometryCollection => .geometryCollection

/-- A GeoJSON feature: a geometry plus a property bag. -/
structure Feature where
  geometry : Geometry
  properties : List (String × PropVal) := []
deriving DecidableEq, Repr

/-- A GeoJSON feature collection (`turf.featureCollection`). -/
structure FeatureColl where
  features : List Feature
deriving DecidableEq, Repr

/-- A bounding box `[west, south, east, north]` as returned by `turf.bbox`. -/
structure BBox where
  west : ℚ
  south : ℚ
  east : ℚ
  north : ℚ
deriving DecidableEq, Repr

/-- The Turf.js operations invoked by `src/utils/geometry.js`, abstracted as
record fields.  Distances fed to `destination`, `buffer`, `circle`,
`pointGrid` and `squareGrid` are in kilometres, exactly as at the JS call
sites.  `buffer` and `intersect` return `none` where Turf returns
`undefined`/`null` (collapsed buffer, empty intersection); `hypot` and
`atan2deg` stand for `Math.hypot` and `Math.atan2(·,·)·180/π`. -/
structure GeoOps where
  destination : LngLat → ℚ → ℚ → LngLat
  bbox : Feature → BBox
  pointGrid : BBox → ℚ → List LngLat
  booleanPointInPolygon : LngLat → Feature → Bool
  booleanWithin : Feature → Feature → Bool
  booleanIntersects : Feature → Feature → Bool
  intersect : Feature → Feature → Option Feature
  area : Feature → ℚ
  buffer : Feature → ℚ → Option Feature
  centroid : Feature → LngLat
  circle : LngLat → ℚ → Feature
  squareGrid : BBox → ℚ → List Feature
  center : Feature → LngLat
  distance : LngLat → LngLat → ℚ
  hypot : ℚ → ℚ → ℚ
  atan2deg : ℚ → ℚ → ℚ

/-- `metersToKm(m)` from the source: `m / 1000`. -/
def metersToKm (m : ℚ) : ℚ := m / 1000

/-- `kmToMeters(km)` from the source: `km * 1000`. -/
def kmToMeters (km : ℚ) : ℚ := km * 1000

/-- `Math.imul(x, y)` on 32-bit patterns: the low 32 bits of the product. -/
def imul32 (x y : ℕ) : ℕ := (x * y) % 2 ^ 32

/-- One step of the `mulberry32` closure from the source.  The closure state
is the accumulator `a` (a JS number that only ever has `+= 0x6d2b79f5`
applied to it; every use coerces it to 32 bits first, so keeping the exact
sum is faithful).  Returns the next state and the produced sample
`((t ^ (t >>> 14)) >>> 0) / 4294967296`. -/
def mulberry32Next (a : ℕ) : ℕ × ℚ :=
  let a' := a + 0x6d2b79f5
  let t0 := a' % 2 ^ 32
  let t1 := imul32 (t0 ^^^ (t0 >>> 15)) (t0 ||| 1)
  let t2 := t1 ^^^ ((t1 + imul32 (t1 ^^^ (t1 >>> 7)) (t1 ||| 61)) % 2 ^ 32)
  let r := t2 ^^^ (t2 >>> 14)
  (a', (r : ℚ) / 4294967296)

/-- `buildRect` from the source: a closed 4-corner rectangle polygon centred
at `center`, built from two geodesic `turf.destination` moves per corner
(`move(pt, distM, bearing) = destination(pt, distM / 1000, bearing)`). -/
def buildRect (ops : GeoOps) (center : LngLat) (width height rotationDeg : ℚ)
    (props : List (String × PropVal)) : Feature :=
  let halfW := width / 2
  let halfH := height / 2
  let move := fun (pt : LngLat) (distM bearing : ℚ) =>
    ops.destination pt (distM / 1000) bearing
  let tl := move (move center halfW rotationDeg) halfH (rotationDeg + 90)
  let tr := move (move center halfW rotationDeg) (-halfH) (rotationDeg + 90)
  let br := move (move center (-halfW) rotationDeg) (-halfH) (rotationDeg + 90)
  let bl := move (move center (-halfW) rotationDeg) halfH (rotationDeg + 90)
  { geometry := .polygon [[tl, tr, br, bl, tl]], properties := props }

/-- `gridCenters` from the source: the `turf.pointGrid` lattice over the
site's bounding box at `stepMeters` spacing, filtered by
`turf.booleanPointInPolygon`. -/
def gridCenters (ops : GeoOps) (sitePoly : Feature) (stepMeters : ℚ) : List LngLat :=
  (ops.pointGrid (ops.bbox sitePoly) (metersToKm stepMeters)).filter
    (fun pt => ops.booleanPointInPolygon pt sitePoly)

/-- `Math.round`: round half towards positive infinity. -/
def jsRound (q : ℚ) : ℤ := ⌊q + 1 / 2⌋

/-- `snapLngLat` from the source: snap a coordinate to a `spacingM`-metre
grid around `origin`, using a locally linear degrees-to-metres scale probed
with two `turf.distance` calls of 0.01 degree. -/
def snapLngLat (ops : GeoOps) (c : LngLat) (spacingM : ℚ) (origin : LngLat) : LngLat :=
  let north := ops.distance origin ⟨origin.lng, origin.lat + 1 / 100⟩
  let east := ops.distance origin ⟨origin.lng + 1 / 100, origin.lat⟩
  let mPerDegLat := kmToMeters north / (1 / 100)
  let mPerDegLng := kmToMeters east / (1 / 100)
  let x := (c.lng - origin.lng) * mPerDegLng
  let y := (c.lat - origin.lat) * mPerDegLat
  let sx := (jsRound (x / spacingM) : ℚ) * spacingM
  let sy := (jsRound (y / spacingM) : ℚ) * spacingM
  ⟨origin.lng + sx / mPerDegLng, origin.lat + sy / mPerDegLat⟩

/-- The per-ring body of `snapFeatureToGrid`: snap every vertex; with
`orthogonal` set, every vertex after the first keeps either the longitude or
the latitude of the previous ORIGINAL vertex `linear[i-1]`, whichever axis
has the smaller displacement. -/
def snapLinear (ops : GeoOps) (spacingM : ℚ) (origin : LngLat) (orthogonal : Bool)
    (linear : List LngLat) : List LngLat :=
  linear.mapIdx fun i c =>
    let snapped := snapLngLat ops c spacingM origin
    if orthogonal = false ∨ i = 0 then snapped
    else
      -- `linear[i - 1]` in the source indexes the original ring; the
      -- default is unreachable because `i ≥ 1` here.
      let prev := linear.getD (i - 1) ⟨0, 0⟩
      let dx := snapped.lng - prev.lng
      let dy := snapped.lat - prev.lat
      if |dy| < |dx| then ⟨snapped.lng, prev.lat⟩ else ⟨prev.lng, snapped.lat⟩

/-- `snapFeatureToGrid` from the source.  The JS deep copy
(`JSON.parse(JSON.stringify(feature))`) is the identity in this value
semantics.  For a `Polygon`, the source wraps the coordinates as
`[coordinates]`, maps over rings, and writes `newRings[0]` back, which is
the same as mapping `snapLinear` over the rings directly. -/
def snapFeatureToGrid (ops : GeoOps) (f : Feature) (spacingM : ℚ) (origin : LngLat)
    (orthogonal : Bool) : Feature :=
  match f.geometry with
  | .polygon rings =>
      { f with geometry := .polygon (rings.map (snapLinear ops spacingM origin orthogonal)) }
  | .multiPolygon ps =>
      { f with geometry :=
          .multiPolygon (ps.map (fun poly => poly.map (snapLinear ops spacingM origin orthogonal))) }
  | _ => f

/-- A process-type catalog entry as consumed by `generateBlocks` (`t.id`,
`t.w`, `t.h` are the only fields the generator reads). -/
structure ProcType where
  id : String
  w : ℚ
  h : ℚ
deriving DecidableEq, Repr

/-- The argument object of `generateBlocks`.  `sitePolygon` may be
null (`none`); a falsy `maxBlocks` (`0`/`undefined`) is modelled as `0`;
a nullish `seed` is `none` (the source applies `seed ?? 1`). -/
structure GenArgs where
  sitePolygon : Option Feature
  types : List ProcType
  aisleWidth : ℚ
  rotation : ℚ
  seed : Option ℕ
  jitter : ℚ
  maxBlocks : ℕ
deriving DecidableEq, Repr

/-- Result of one inner (`for t of types`) loop of `generateBlocks`:
either the loop finished normally (carrying the accumulated blocks, the
accepted count and the RNG state), or the `maxBlocks` early `return` fired. -/
inductive GenStep where
  | cont (out : List Feature) (count : ℕ) (rng : ℕ)
  | done (out : List Feature)
deriving DecidableEq, Repr

/-- The list of blocks carried by a `GenStep`. -/
def GenStep.out : GenStep → List Feature
  | .cont o _ _ => o
  | .done o => o

/-- The inner loop of `generateBlocks` over the process types at one
candidate centre `c`: draw two jitter samples, displace the centre
(`turf.destination` at `Math.hypot(jw,jh)/1000` km towards
`Math.atan2(jw,jh)·180/π`), build the rectangle, and accept it only if it is
within the site and within the inward-buffered site; a buffer that is
null or a `GeometryCollection` skips the candidate.  After an accepted
placement, a truthy `maxBlocks` that has been reached returns early. -/
def genTypes (ops : GeoOps) (args : GenArgs) (siteF : Feature) (c : LngLat) :
    List ProcType → List Feature → ℕ → ℕ → GenStep
  | [], out, count, rng => .cont out count rng
  | t :: ts, out, count, rng =>
    let r1 := mulberry32Next rng
    let r2 := mulberry32Next r1.1
    let rng2 := r2.1
    let jw := (r1.2 - 1 / 2) * args.jitter
    let jh := (r2.2 - 1 / 2) * args.jitter
    let jCenter := ops.destination c (ops.hypot jw jh / 1000) (ops.atan2deg jw jh)
    let rect := buildRect ops jCenter t.w t.h args.rotation
      [("role", .str "block"), ("type", .str t.id)]
    if ops.booleanWithin rect siteF = true then
      match ops.buffer siteF (-args.aisleWidth / 2 / 1000) with
      | some inset =>
        if inset.geometry.tag = GeomTag.geometryCollection then
          genTypes ops args siteF c ts out count rng2
        else if ops.booleanWithin rect inset = true then
          let out' := out ++ [rect]
          if args.maxBlocks ≠ 0 ∧ args.maxBlocks ≤ count + 1 then .done out'
          else genTypes ops args siteF c ts out' (count + 1) rng2
        else genTypes ops args siteF c ts out count rng2
      | none => genTypes ops args siteF c ts out count rng2
    else genTypes ops args siteF c ts out count rng2

/-- The outer loop of `generateBlocks` over the candidate centres. -/
def genCenters (ops : GeoOps) (args : GenArgs) (siteF : Feature) :
    List LngLat → List Feature → ℕ → ℕ → List Feature
  | [], out, _, _ => out
  | c :: cs, out, count, rng =>
    match genTypes ops args siteF c args.types out count rng with
    | .done out' => out'
    | .cont out' count' rng' => genCenters ops args siteF cs out' count' rng'

/-- The candidate spacing step of `generateBlocks`:
`Math.max(5, Math.max(...types.map(t => t.w)) + aisleWidth)`.  A spread of
an empty list gives `-Infinity`, so the step degenerates to `5`. -/
def genStep (types : List ProcType) (aisleWidth : ℚ) : ℚ :=
  match (types.map (fun t => t.w)).max? with
  | none => 5
  | some mw => max 5 (mw + aisleWidth)

/-- `generateBlocks` from the source: null site returns the empty
collection; otherwise iterate candidate centres × types with the seeded
`mulberry32` stream (initial closure state `seed ?? 1`). -/
def generateBlocks (ops : GeoOps) (args : GenArgs) : FeatureColl :=
  match args.sitePolygon with
  | none => ⟨[]⟩
  | some siteF =>
    let centers := gridCenters ops siteF (genStep args.types args.aisleWidth)
    ⟨genCenters ops args siteF centers [] 0 (args.seed.getD 1)⟩

/-- The uncapped layout generator: claim C9's reading of the code, "with a
falsy `maxBlocks` every candidate-position × type combination is processed".
Identical to the inner loop of `generateBlocks` except that the
early-return cap branch is absent.  Returns `(blocks, count, rngState)`. -/
def uncappedTypes (ops : GeoOps) (args : GenArgs) (siteF : Feature) (c : LngLat) :
    List ProcType → List Feature → ℕ → ℕ → List Feature × ℕ × ℕ
  | [], out, count, rng => (out, count, rng)
  | t :: ts, out, count, rng =>
    let r1 := mulberry32Next rng
    let r2 := mulberry32Next r1.1
    let rng2 := r2.1
    let jw := (r1.2 - 1 / 2) * args.jitter
    let jh := (r2.2 - 1 / 2) * args.jitter
    let jCenter := ops.destination c (ops.hypot jw jh / 1000) (ops.atan2deg jw jh)
    let rect := buildRect ops jCenter t.w t.h args.rotation
      [("role", .str "block"), ("type", .str t.id)]
    if ops.booleanWithin rect siteF = true then
      match ops.buffer siteF (-args.aisleWidth / 2 / 1000) with
      | some inset =>
        if inset.geometry.tag = GeomTag.geometryCollection then
          uncappedTypes ops args siteF c ts out count rng2
        else if ops.booleanWithin rect inset = true then
          uncappedTypes ops args siteF c ts (out ++ [rect]) (count + 1) rng2
        else uncappedTypes ops args siteF c ts out count rng2
      | none => uncappedTypes ops args siteF c ts out count rng2
    else uncappedTypes ops args siteF c ts out count rng2

/-- Outer loop of the uncapped generator. -/
def uncappedCenters (ops : GeoOps) (args : GenArgs) (siteF : Feature) :
    List LngLat → List Feature → ℕ → ℕ → List Feature
  | [], out, _, _ => out
  | c :: cs, out, count, rng =>
    let s := uncappedTypes ops args siteF c args.types out count rng
    uncappedCenters ops args siteF cs s.1 s.2.1 s.2.2

/-- The generator with the cap branch removed: processes every candidate ×
type combination unconditionally. -/
def generateBlocksUncapped (ops : GeoOps) (args : GenArgs) : FeatureColl :=
  match args.sitePolygon with
  | none => ⟨[]⟩
  | some siteF =>
    let centers := gridCenters ops siteF (genStep args.types args.aisleWidth)
    ⟨uncappedCenters ops args siteF centers [] 0 (args.seed.getD 1)⟩

/-- The `kind` discriminator of a validation issue. -/
inductive IssueKind where
  | clash
  | aisle
  | boundary
  | turning
deriving DecidableEq, Repr

/-- A validation issue object as pushed by `validateLayout`; the JS objects
carry different key subsets per kind, modelled with `Option` fields. -/
structure Issue where
  kind : IssueKind
  a : Option ℕ := none
  b : Option ℕ := none
  area : Option ℚ := none
  geom : Feature
deriving DecidableEq, Repr

/-- The error raised when a Turf call dereferences a null/undefined
geometry (a thrown `TypeError` in JS). -/
inductive GeoErr where
  | nullGeometry
deriving DecidableEq, Repr

/-- Unwrap a possibly-null geometry argument; Turf throws on `null`. -/
def require : Option Feature → Except GeoErr Feature
  | none => .error .nullGeometry
  | some f => .ok f

/-- Inner loop of the clash check: block `i` (value `f`) against blocks
`j = i+1, …`. -/
def clashInner (ops : GeoOps) (i : ℕ) (f : Feature) : ℕ → List Feature → List Issue
  | _, [] => []
  | j, g :: rest =>
    (if ops.booleanIntersects f g = true then
      match ops.intersect f g with
      | some inter => [{ kind := .clash, a := some i, b := some j,
                         area := some (ops.area inter), geom := inter }]
      | none => []
    else []) ++ clashInner ops i f (j + 1) rest

/-- Outer loop of the clash check. -/
def clashOuter (ops : GeoOps) : ℕ → List Feature → List Issue
  | _, [] => []
  | i, f :: rest => clashInner ops i f (i + 1) rest ++ clashOuter ops (i + 1) rest

/-- Check (1) of `validateLayout`: pairwise block-block overlap. -/
def clashPass (ops : GeoOps) (blocks : List Feature) : List Issue :=
  clashOuter ops 0 blocks

/-- Inner loop of the aisle check over the buffered blocks.  Evaluating a
pair one of whose buffers is `undefined` throws in JS
(`turf.booleanIntersects` on a null geometry). -/
def aisleInner (ops : GeoOps) (i : ℕ) :
    Option Feature → ℕ → List (Option Feature) → Except GeoErr (List Issue)
  | _, _, [] => .ok []
  | none, _, _ :: _ => .error .nullGeometry
  | some _, _, none :: _ => .error .nullGeometry
  | some bi, j, some bj :: rest =>
    match aisleInner ops i (some bi) (j + 1) rest with
    | .error e => .error e
    | .ok tail =>
      .ok ((if ops.booleanIntersects bi bj = true then
        match ops.intersect bi bj with
        | some inter => [{ kind := .aisle, a := some i, b := some j, geom := inter }]
        | none => []
      else []) ++ tail)

/-- Outer loop of the aisle check. -/
def aisleOuter (ops : GeoOps) : ℕ → List (Option Feature) → Except GeoErr (List Issue)
  | _, [] => .ok []
  | i, bi? :: rest =>
    match aisleInner ops i bi? (i + 1) rest with
    | .error e => .error e
    | .ok head =>
      match aisleOuter ops (i + 1) rest with
      | .error e => .error e
      | .ok tail => .ok (head ++ tail)

/-- Check (2) of `validateLayout`: buffer every block outward by
`minAisle / 1000` km and report pairs of buffers that still intersect. -/
def aislePass (ops : GeoOps) (blocks : List Feature) (minAisle : ℚ) :
    Except GeoErr (List Issue) :=
  aisleOuter ops 0 (blocks.map (fun f => ops.buffer f (minAisle / 1000)))

/-- Loop of the boundary check: `turf.booleanWithin(f, inset)` throws when
the inward buffer degenerated to `undefined` — but only once a block is
actually tested. -/
def boundaryLoop (ops : GeoOps) :
    Option Feature → ℕ → List Feature → Except GeoErr (List Issue)
  | _, _, [] => .ok []
  | none, _, _ :: _ => .error .nullGeometry
  | some inset, i, f :: rest =>
    match boundaryLoop ops (some inset) (i + 1) rest with
    | .error e => .error e
    | .ok tail =>
      .ok ((if ops.booleanWithin f inset = true then []
            else [{ kind := .boundary, a := some i, geom := f }]) ++ tail)

/-- Check (3) of `validateLayout`: every block must lie within the site
shrunk inward by `boundaryClearance / 1000` km.  `turf.buffer` on a null
site throws immediately. -/
def boundaryPass (ops : GeoOps) (site : Option Feature) (blocks : List Feature)
    (boundaryClearance : ℚ) : Except GeoErr (List Issue) :=
  match require site with
  | .error e => .error e
  | .ok s => boundaryLoop ops (ops.buffer s (-boundaryClearance / 1000)) 0 blocks

/-- Check (4) of `validateLayout`: a 64-step circle of the turning radius
around the site centroid must lie within the site.  `turf.centroid` on a
null site throws. -/
def turningPass (ops : GeoOps) (site : Option Feature) (turnRadius : ℚ) :
    Except GeoErr (List Issue) :=
  match require site with
  | .error e => .error e
  | .ok s =>
    let c := ops.centroid s
    let circ := ops.circle c (metersToKm turnRadius)
    .ok (if ops.booleanWithin circ s = true then []
         else [{ kind := .turning, geom := circ }])

/-- `validateLayout` from the source: the four checks run in order (aisle,
boundary and turning only when their threshold is positive) and push into a
single issue list; a thrown `TypeError` aborts the whole call. -/
def validateLayout (ops : GeoOps) (site : Option Feature) (blocks : FeatureColl)
    (minAisle boundaryClearance turnRadius : ℚ) : Except GeoErr (List Issue) :=
  let clash := clashPass ops blocks.features
  match (if 0 < minAisle then aislePass ops blocks.features minAisle else .ok []) with
  | .error e => .error e
  | .ok aisle =>
    match (if 0 < boundaryClearance then
             boundaryPass ops site blocks.features boundaryClearance else .ok []) with
    | .error e => .error e
    | .ok bnd =>
      match (if 0 < turnRadius then turningPass ops site turnRadius else .ok []) with
      | .error e => .error e
      | .ok trn => .ok (clash ++ aisle ++ bnd ++ trn)

/-- Loop of `generateHeatSquares` over the grid cells: keep cells whose
centre is in the site and annotate them with
`value = 1 / (minDistanceKm + 0.001)`. -/
def heatLoop (ops : GeoOps) (s : Feature) (sources : List LngLat) :
    List Feature → List Feature
  | [] => []
  | cell :: rest =>
    let c := ops.center cell
    if ops.booleanPointInPolygon c s = true then
      let dists := sources.map (fun src => ops.distance c src)
      let v := 1 / (dists.min?.getD 0 + 1 / 1000)
      { geometry := cell.geometry, properties := [("value", PropVal.num v)] }
        :: heatLoop ops s sources rest
    else heatLoop ops s sources rest

/-- `generateHeatSquares` from the source: no site or no sources gives an
empty collection; otherwise a `turf.squareGrid` over the site's bbox,
clipped to cells whose centre lies in the site. -/
def generateHeatSquares (ops : GeoOps) (site : Option Feature) (sources : List LngLat)
    (cellM : ℚ) : FeatureColl :=
  match site with
  | none => ⟨[]⟩
  | some s =>
    if sources.length = 0 then ⟨[]⟩
    else ⟨heatLoop ops s sources (ops.squareGrid (ops.bbox s) (metersToKm cellM))⟩

/-! ### A concrete planar instance of the Turf operations

`boxOps` interprets every feature through its axis-aligned bounding box on a
planar chart in which one kilometre is one degree.  On axis-aligned
rectangle features (the only features the witnesses and counterexamples
below feed it) this agrees with the behaviour of the real library:
within/intersects/intersect/area are the exact box predicates, a negative
buffer that swallows the box yields `undefined` (`none`), and a proper
intersection of boxes is the intersection box. -/

/-- All coordinates of a geometry. -/
def Geometry.coords : Geometry → List LngLat
  | .point c => [c]
  | .lineString cs => cs
  | .polygon rings => rings.foldr (fun r acc => r ++ acc) []
  | .multiPolygon ps => ps.foldr (fun p acc => p.foldr (fun r acc' => r ++ acc') acc) []
  | .geometryCollection => []

/-- Bounding box of a feature (`turf.bbox`): componentwise min/max over all
coordinates; the empty geometry gets a degenerate zero box. -/
def bboxOf (f : Feature) : BBox :=
  match f.geometry.coords with
  | [] => ⟨0, 0, 0, 0⟩
  | c :: cs =>
    cs.foldl (fun (b : BBox) (p : LngLat) =>
        ⟨min b.west p.lng, min b.south p.lat, max b.east p.lng, max b.north p.lat⟩)
      ⟨c.lng, c.lat, c.lng, c.lat⟩

/-- An axis-aligned rectangle polygon feature with the given bounds. -/
def rectFeature (x1 y1 x2 y2 : ℚ) : Feature :=
  { geometry := .polygon [[⟨x1, y1⟩, ⟨x2, y1⟩, ⟨x2, y2⟩, ⟨x1, y2⟩, ⟨x1, y1⟩]] }

/-- The axis positions `lo, lo + s, lo + 2s, …` up to `hi`
(`while (current <= hi) current += s`). -/
def axisPoints (lo hi s : ℚ) : List ℚ :=
  (List.range ((⌊(hi - lo) / s⌋).toNat + 1)).map (fun i => lo + (i : ℚ) * s)

/-- The point lattice over a bounding box, x outer loop, y inner loop,
anchored at the box's minimum corner. -/
def latticeOfBBox (bb : BBox) (sx sy : ℚ) : List LngLat :=
  (axisPoints bb.west bb.east sx).flatMap
    (fun x => (axisPoints bb.south bb.north sy).map (fun y => ⟨x, y⟩))

/-- Quarter-turn sine table in degrees (exact at multiples of 90°, the only
bearings the planar test instance is evaluated at). -/
def sinQ (b : ℚ) : ℚ :=
  let r := b - 360 * ⌊b / 360⌋
  if r = 0 then 0 else if r = 90 then 1 else if r = 180 then 0
  else if r = 270 then -1 else 0

/-- Quarter-turn cosine table in degrees. -/
def cosQ (b : ℚ) : ℚ :=
  let r := b - 360 * ⌊b / 360⌋
  if r = 0 then 1 else if r = 90 then 0 else if r = 180 then -1
  else if r = 270 then 0 else 0

/-- The planar box instance of the Turf operations (see section header). -/
def boxOps : GeoOps where
  destination := fun c dKm bearing => ⟨c.lng + dKm * sinQ bearing, c.lat + dKm * cosQ bearing⟩
  bbox := bboxOf
  pointGrid := fun bb s => latticeOfBBox bb s s
  booleanPointInPolygon := fun c f =>
    let b := bboxOf f
    decide (b.west ≤ c.lng ∧ c.lng ≤ b.east ∧ b.south ≤ c.lat ∧ c.lat ≤ b.north)
  booleanWithin := fun f g =>
    let a := bboxOf f
    let b := bboxOf g
    decide (b.west ≤ a.west ∧ a.east ≤ b.east ∧ b.south ≤ a.south ∧ a.north ≤ b.north)
  booleanIntersects := fun f g =>
    let a := bboxOf f
    let b := bboxOf g
    decide (a.west ≤ b.east ∧ b.west ≤ a.east ∧ a.south ≤ b.north ∧ b.south ≤ a.north)
  intersect := fun f g =>
    let a := bboxOf f
    let b := bboxOf g
    let x1 := max a.west b.west
    let y1 := max a.south b.south
    let x2 := min a.east b.east
    let y2 := min a.north b.north
    if x1 < x2 ∧ y1 < y2 then some (rectFeature x1 y1 x2 y2) else none
  area := fun f =>
    let b := bboxOf f
    (b.east - b.west) * (b.north - b.south)
  buffer := fun f d =>
    let b := bboxOf f
    if b.east - b.west + 2 * d < 0 ∨ b.north - b.south + 2 * d < 0 then none
    else some (rectFeature (b.west - d) (b.south - d) (b.east + d) (b.north + d))
  centroid := fun f =>
    let b := bboxOf f
    ⟨(b.west + b.east) / 2, (b.south + b.north) / 2⟩
  circle := fun c r => rectFeature (c.lng - r) (c.lat - r) (c.lng + r) (c.lat + r)
  squareGrid := fun bb s =>
    (axisPoints bb.west bb.east s).flatMap
      (fun x => (axisPoints bb.south bb.north s).map
        (fun y => rectFeature x y (x + s) (y + s)))
  center := fun f =>
    let b := bboxOf f
    ⟨(b.west + b.east) / 2, (b.south + b.north) / 2⟩
  distance := fun a b => |a.lng - b.lng| + |a.lat - b.lat|
  hypot := fun a b => if a = 0 ∧ b = 0 then 0 else |a| + |b|
  atan2deg := fun _ _ => 0

/-! ### Spec-modelled grid sampler instance

`turf.pointGrid` and `turf.booleanPointInPolygon` are third-party library
code that is not part of this repository's sources, so for claim C8 they are
modelled from the specification's words: the candidate lattice is "spacing =
step, aligned to the polygon's bounding box origin" ("the lattice origin is
always the bounding box's minimum corner"), and the filter keeps the points
"that fall strictly inside the polygon". -/

/-- Whether `p` lies on the closed segment from `a` to `b` (exact rational
collinearity plus box test). -/
def onSeg (p a b : LngLat) : Bool :=
  decide ((b.lng - a.lng) * (p.lat - a.lat) - (b.lat - a.lat) * (p.lng - a.lng) = 0 ∧
    min a.lng b.lng ≤ p.lng ∧ p.lng ≤ max a.lng b.lng ∧
    min a.lat b.lat ≤ p.lat ∧ p.lat ≤ max a.lat b.lat)

/-- Consecutive vertex pairs of a ring. -/
def segPairs (ring : List LngLat) : List (LngLat × LngLat) :=
  ring.zip ring.tail

/-- Whether `p` lies on some edge of the ring. -/
def onRing (p : LngLat) (ring : List LngLat) : Bool :=
  (segPairs ring).any (fun ab => onSeg p ab.1 ab.2)

/-- Number of ring edges strictly crossed by the horizontal ray going right
from `p` (standard even-odd crossing test over exact rationals). -/
def rayCrossings (p : LngLat) (ring : List LngLat) : ℕ :=
  (segPairs ring).countP (fun ab =>
    decide (¬((ab.1.lat > p.lat) ↔ (ab.2.lat > p.lat)) ∧
      p.lng < ab.1.lng + (ab.2.lng - ab.1.lng) * (p.lat - ab.1.lat) /
        (ab.2.lat - ab.1.lat)))

/-- Modelled from the spec: whether `p` lies on the boundary of the polygon
feature (any ring edge). -/
def onPolyBoundary (p : LngLat) (f : Feature) : Bool :=
  match f.geometry with
  | .polygon rings => rings.any (onRing p)
  | _ => false

/-- Modelled from the spec: even-odd interior test of a polygon feature
(odd total number of ray crossings over all rings). -/
def insideEvenOdd (p : LngLat) (f : Feature) : Bool :=
  match f.geometry with
  | .polygon rings => decide ((rings.foldl (fun n r => n + rayCrossings p r) 0) % 2 = 1)
  | _ => false

/-- Modelled from the spec: the points "that fall strictly inside the
polygon" — in the interior and on no boundary edge. -/
def strictlyInside (p : LngLat) (f : Feature) : Bool :=
  !onPolyBoundary p f && insideEvenOdd p f

/-- Modelled from the spec: the grid-sampler operations for claim C8 — the
lattice anchored at the bounding box's minimum corner with spacing `step`
(converted to degrees by the fixed local scales `kx`, `ky` degrees per
kilometre), filtered strictly inside. -/
def specOps (kx ky : ℚ) : GeoOps :=
  { boxOps with
    bbox := bboxOf
    pointGrid := fun bb s => latticeOfBBox bb (s * kx) (s * ky)
    booleanPointInPolygon := strictlyInside }

/-! ### Test fixtures

Concrete inputs used by witnesses and counterexamples, evaluated through the
planar `boxOps` instance.  The site is the `[0,4]²` square of the planar
chart; the single process type is a `2000 m × 2000 m` block, which occupies
`±1` chart degree around its centre (1 km = 1 degree in `boxOps`). -/

/-- Fixture: square site `[0,4] × [0,4]`. -/
def siteFix : Feature := rectFeature 0 0 4 4

/-- Fixture: generation arguments that accept exactly one block (centre
`(2,2)`) out of the nine candidate centres. -/
def argsFix : GenArgs :=
  { sitePolygon := some siteFix, types := [⟨"t", 2000, 2000⟩], aisleWidth := 0,
    rotation := 0, seed := some 1, jitter := 0, maxBlocks := 10 }

/-- Fixture: the single block accepted from `argsFix`. -/
def blockFix : Feature :=
  buildRect boxOps ⟨2, 2⟩ 2000 2000 0 [("role", .str "block"), ("type", .str "t")]

/-- Fixture: `argsFix` with a falsy (`0`) `maxBlocks`. -/
def argsZeroFix : GenArgs := { argsFix with maxBlocks := 0 }

/-! ### Generator lemmas -/

/-- The emission-time guarantee of `generateBlocks`: the block passed the
within-site test and the within-inward-buffer test. -/
def EmitInv (ops : GeoOps) (siteF : Feature) (aisleWidth : ℚ) (b : Feature) : Prop :=
  ops.booleanWithin b siteF = true ∧
    ∃ inset, ops.buffer siteF (-aisleWidth / 2 / 1000) = some inset ∧
      ops.booleanWithin b inset = true

theorem genTypes_sound (ops : GeoOps) (args : GenArgs) (siteF : Feature) (c : LngLat) :
    ∀ (ts : List ProcType) (out : List Feature) (count rng : ℕ),
      (∀ b ∈ out, EmitInv ops siteF args.aisleWidth b) →
      ∀ b ∈ (genTypes ops args siteF c ts out count rng).out,
        EmitInv ops siteF args.aisleWidth b := by
  intro ts
  induction ts with
  | nil =>
    intro out count rng hout b hb
    exact hout b hb
  | cons t ts ih =>
    intro out count rng hout b hb
    rw [genTypes] at hb
    split at hb
    · rename_i hin
      split at hb
      · rename_i inset hbuf
        split at hb
        · exact ih out count _ hout b hb
        · split at hb
          · rename_i hGC hins
            split at hb
            · simp only [GenStep.out] at hb
              rcases List.mem_append.mp hb with h | h
              · exact hout b h
              · rcases List.mem_singleton.mp h with rfl
                exact ⟨hin, inset, hbuf, hins⟩
            · refine ih (out ++ [_]) (count + 1) _ ?_ b hb
              intro x hx
              rcases List.mem_append.mp hx with h | h
              · exact hout x h
              · rcases List.mem_singleton.mp h with rfl
                exact ⟨hin, inset, hbuf, hins⟩
          · exact ih out count _ hout b hb
      · exact ih out count _ hout b hb
    · exact ih out count _ hout b hb

theorem genCenters_sound (ops : GeoOps) (args : GenArgs) (siteF : Feature) :
    ∀ (cs : List LngLat) (out : List Feature) (count rng : ℕ),
      (∀ b ∈ out, EmitInv ops siteF args.aisleWidth b) →
      ∀ b ∈ genCenters ops args siteF cs out count rng,
        EmitInv ops siteF args.aisleWidth b := by
  intro cs
  induction cs with
  | nil =>
    intro out count rng hout b hb
    exact hout b hb
  | cons c cs ih =>
    intro out count rng hout b hb
    rw [genCenters] at hb
    cases hstep : genTypes ops args siteF c args.types out count rng with
    | cont o k r =>
      rw [hstep] at hb
      refine ih o k r ?_ b hb
      intro x hx
      have hall := genTypes_sound ops args siteF c args.types out count rng hout x
      rw [hstep] at hall
      exact hall hx
    | done o =>
      rw [hstep] at hb
      have hall := genTypes_sound ops args siteF c args.types out count rng hout b
      rw [hstep] at hall
      exact hall hb

/-- Claim C1 — every Block feature returned by `generateBlocks` for a
non-null site polygon passed, at emission time, the Turf within-site test
and the within test against the site buffered inward by `aisleWidth/2`
metres (`turf.buffer(site, -aisleWidth/2/1000 km)`). -/
theorem generateBlocks_contained (ops : GeoOps) (args : GenArgs) (siteF : Feature)
    (hsite : args.sitePolygon = some siteF) :
    ∀ b ∈ (generateBlocks ops args).features,
      ops.booleanWithin b siteF = true ∧
        ∃ inset, ops.buffer siteF (-args.aisleWidth / 2 / 1000) = some inset ∧
          ops.booleanWithin b inset = true := by
  intro b hb
  rw [generateBlocks, hsite] at hb
  exact genCenters_sound ops args siteF _ [] 0 _ (by intro x hx; cases hx) b hb

/-- Witness for C1: on the planar instance with `argsFix`, the generator
emits exactly `[blockFix]`, and the containment conclusion holds for it. -/
theorem generateBlocks_contained_witness :
    argsFix.sitePolygon = some siteFix ∧
      (generateBlocks boxOps argsFix).features = [blockFix] ∧
      ∀ b ∈ (generateBlocks boxOps argsFix).features,
        boxOps.booleanWithin b siteFix = true ∧
          ∃ inset, boxOps.buffer siteFix (-argsFix.aisleWidth / 2 / 1000) = some inset ∧
            boxOps.booleanWithin b inset = true :=
  ⟨rfl, by with_unfolding_all rfl,
    generateBlocks_contained boxOps argsFix siteFix rfl⟩

/-- Claim C2 — determinism: `generateBlocks` is a pure function of
`(sitePolygon, types, aisleWidth, rotation, seed, jitter, maxBlocks)` (the
RNG is the embedded seed-determined `mulberry32` stream; there is no other
state), so two calls whose seven arguments agree return identical block
collections, in the same order. -/
theorem generateBlocks_deterministic (ops : GeoOps) (a1 a2 : GenArgs)
    (h1 : a1.sitePolygon = a2.sitePolygon) (h2 : a1.types = a2.types)
    (h3 : a1.aisleWidth = a2.aisleWidth) (h4 : a1.rotation = a2.rotation)
    (h5 : a1.seed = a2.seed) (h6 : a1.jitter = a2.jitter)
    (h7 : a1.maxBlocks = a2.maxBlocks) :
    generateBlocks ops a1 = generateBlocks ops a2 := by
  have : a1 = a2 := by
    cases a1
    cases a2
    simp_all
  rw [this]

/-- Witness for C2: two calls with the fixture arguments coincide. -/
theorem generateBlocks_deterministic_witness :
    generateBlocks boxOps argsFix = generateBlocks boxOps argsFix :=
  generateBlocks_deterministic boxOps argsFix argsFix rfl rfl rfl rfl rfl rfl rfl

/-- The cap invariant carried through the generation loops. -/
def StepInv (mb : ℕ) : GenStep → Prop
  | .done o => o.length ≤ mb
  | .cont o k _ => k = o.length ∧ k < mb

theorem genTypes_cap (ops : GeoOps) (args : GenArgs) (siteF : Feature) (c : LngLat) :
    ∀ (ts : List ProcType) (out : List Feature) (count rng : ℕ),
      count = out.length → count < args.maxBlocks →
      StepInv args.maxBlocks (genTypes ops args siteF c ts out count rng) := by
  intro ts
  induction ts with
  | nil =>
    intro out count rng hlen hlt
    exact ⟨hlen, hlt⟩
  | cons t ts ih =>
    intro out count rng hlen hlt
    rw [genTypes]
    split
    · split
      · split
        · exact ih out count _ hlen hlt
        · split
          · split
            · rename_i hcap
              simp only [StepInv, List.length_append, List.length_singleton, ← hlen]
              omega
            · rename_i hcap
              refine ih _ (count + 1) _ ?_ ?_
              · simp [hlen]
              · omega
          · exact ih out count _ hlen hlt
      · exact ih out count _ hlen hlt
    · exact ih out count _ hlen hlt

theorem genCenters_cap (ops : GeoOps) (args : GenArgs) (siteF : Feature) :
    ∀ (cs : List LngLat) (out : List Feature) (count rng : ℕ),
      count = out.length → count < args.maxBlocks →
      (genCenters ops args siteF cs out count rng).length ≤ args.maxBlocks := by
  intro cs
  induction cs with
  | nil =>
    intro out count rng hlen hlt
    rw [genCenters]
    omega
  | cons c cs ih =>
    intro out count rng hlen hlt
    rw [genCenters]
    have hinv := genTypes_cap ops args siteF c args.types out count rng hlen hlt
    cases hstep : genTypes ops args siteF c args.types out count rng with
    | cont o k r =>
      rw [hstep] at hinv
      exact ih o k r hinv.1 hinv.2
    | done o =>
      rw [hstep] at hinv
      exact hinv

/-- Counterexample to claim C3 as stated: with `maxBlocks = 0` (a falsy
value the UI can produce) the cap branch never fires, and the fixture run
returns one block, which exceeds `maxBlocks`. -/
theorem generateBlocks_cap_counterexample :
    ¬((generateBlocks boxOps argsZeroFix).features.length ≤ argsZeroFix.maxBlocks) := by
  intro h
  rw [(by with_unfolding_all rfl :
        (generateBlocks boxOps argsZeroFix).features.length = 1),
      (rfl : argsZeroFix.maxBlocks = 0)] at h
  exact absurd h (by decide)

/-- Claim C3, amended — for every truthy cap `maxBlocks = N ≥ 1`, the
generator returns at most `N` blocks, for any site, type list, seed and
jitter. -/
theorem generateBlocks_cap (ops : GeoOps) (args : GenArgs)
    (h : 1 ≤ args.maxBlocks) :
    (generateBlocks ops args).features.length ≤ args.maxBlocks := by
  rw [generateBlocks]
  rcases hs : args.sitePolygon with _ | siteF
  · simp
  · exact genCenters_cap ops args siteF _ [] 0 _ rfl h

/-- Witness for the amended C3: the fixture run with cap `10` returns at
most `10` blocks. -/
theorem generateBlocks_cap_witness :
    1 ≤ argsFix.maxBlocks ∧
      (generateBlocks boxOps argsFix).features.length ≤ argsFix.maxBlocks :=
  ⟨by decide, generateBlocks_cap boxOps argsFix (by decide)⟩

theorem genTypes_nocap (ops : GeoOps) (args : GenArgs) (siteF : Feature) (c : LngLat)
    (hmb : args.maxBlocks = 0) :
    ∀ (ts : List ProcType) (out : List Feature) (count rng : ℕ),
      genTypes ops args siteF c ts out count rng =
        .cont (uncappedTypes ops args siteF c ts out count rng).1
          (uncappedTypes ops args siteF c ts out count rng).2.1
          (uncappedTypes ops args siteF c ts out count rng).2.2 := by
  intro ts
  induction ts with
  | nil =>
    intro out count rng
    rfl
  | cons t ts ih =>
    intro out count rng
    rw [genTypes, uncappedTypes]
    split
    · split
      · split
        · exact ih out count _
        · split
          · rw [if_neg (by simp [hmb])]
            exact ih _ (count + 1) _
          · exact ih out count _
      · exact ih out count _
    · exact ih out count _

theorem genCenters_nocap (ops : GeoOps) (args : GenArgs) (siteF : Feature)
    (hmb : args.maxBlocks = 0) :
    ∀ (cs : List LngLat) (out : List Feature) (count rng : ℕ),
      genCenters ops args siteF cs out count rng =
        uncappedCenters ops args siteF cs out count rng := by
  intro cs
  induction cs with
  | nil =>
    intro out count rng
    rfl
  | cons c cs ih =>
    intro out count rng
    rw [genCenters, uncappedCenters, genTypes_nocap ops args siteF c hmb]
    exact ih _ _ _

/-- Claim C9 — with a falsy `maxBlocks` (`0`/`undefined`), `generateBlocks`
applies no cap at all: it coincides with the loop that processes every
candidate-position × type combination (the cap's early-return branch
requires `maxBlocks` to be truthy). -/
theorem generateBlocks_nocap (ops : GeoOps) (args : GenArgs)
    (hmb : args.maxBlocks = 0) :
    generateBlocks ops args = generateBlocksUncapped ops args := by
  rw [generateBlocks, generateBlocksUncapped]
  rcases hs : args.sitePolygon with _ | siteF
  · rfl
  · dsimp only
    rw [genCenters_nocap ops args siteF hmb]

/-- Witness for C9: the zero-cap fixture run equals the uncapped loop. -/
theorem generateBlocks_nocap_witness :
    argsZeroFix.maxBlocks = 0 ∧
      generateBlocks boxOps argsZeroFix = generateBlocksUncapped boxOps argsZeroFix :=
  ⟨rfl, generateBlocks_nocap boxOps argsZeroFix rfl⟩

/-! ### Validator lemmas -/

theorem clashInner_kind (ops : GeoOps) (i : ℕ) (f : Feature) :
    ∀ (gs : List Feature) (j : ℕ), ∀ x ∈ clashInner ops i f j gs, x.kind = .clash := by
  intro gs
  induction gs with
  | nil =>
    intro j x hx
    rw [clashInner] at hx
    cases hx
  | cons g gs ih =>
    intro j x hx
    rw [clashInner] at hx
    rcases List.mem_append.mp hx with h | h
    · by_cases hc : ops.booleanIntersects f g = true
      · rw [if_pos hc] at h
        cases hint : ops.intersect f g with
        | none => rw [hint] at h; cases h
        | some inter =>
          rw [hint] at h
          rcases List.mem_singleton.mp h with rfl
          rfl
      · rw [if_neg hc] at h
        cases h
    · exact ih (j + 1) x h

theorem clashOuter_kind (ops : GeoOps) :
    ∀ (fs : List Feature) (i : ℕ), ∀ x ∈ clashOuter ops i fs, x.kind = .clash := by
  intro fs
  induction fs with
  | nil =>
    intro i x hx
    rw [clashOuter] at hx
    cases hx
  | cons f fs ih =>
    intro i x hx
    rw [clashOuter] at hx
    rcases List.mem_append.mp hx with h | h
    · exact clashInner_kind ops i f fs (i + 1) x h
    · exact ih (i + 1) x h

theorem aisleInner_kind (ops : GeoOps) (i : ℕ) :
    ∀ (rest : List (Option Feature)) (bi? : Option Feature) (j : ℕ) (l : List Issue),
      aisleInner ops i bi? j rest = .ok l → ∀ x ∈ l, x.kind = .aisle := by
  intro rest
  induction rest with
  | nil =>
    intro bi? j l h x hx
    rw [aisleInner] at h
    injection h with h'
    subst h'
    cases hx
  | cons bj? rest ih =>
    intro bi? j l h x hx
    cases bi? with
    | none => rw [aisleInner] at h; exact Except.noConfusion h
    | some bi =>
      cases bj? with
      | none => rw [aisleInner] at h; exact Except.noConfusion h
      | some bj =>
        rw [aisleInner] at h
        cases hrec : aisleInner ops i (some bi) (j + 1) rest with
        | error e => rw [hrec] at h; exact Except.noConfusion h
        | ok tail =>
          rw [hrec] at h
          injection h with h'
          subst h'
          rcases List.mem_append.mp hx with h1 | h2
          · by_cases hc : ops.booleanIntersects bi bj = true
            · rw [if_pos hc] at h1
              cases hint : ops.intersect bi bj with
              | none => rw [hint] at h1; cases h1
              | some inter =>
                rw [hint] at h1
                rcases List.mem_singleton.mp h1 with rfl
                rfl
            · rw [if_neg hc] at h1
              cases h1
          · exact ih (some bi) (j + 1) tail hrec x h2

theorem aisleOuter_kind (ops : GeoOps) :
    ∀ (buf : List (Option Feature)) (i : ℕ) (l : List Issue),
      aisleOuter ops i buf = .ok l → ∀ x ∈ l, x.kind = .aisle := by
  intro buf
  induction buf with
  | nil =>
    intro i l h x hx
    rw [aisleOuter] at h
    injection h with h'
    subst h'
    cases hx
  | cons bi? rest ih =>
    intro i l h x hx
    rw [aisleOuter] at h
    cases hin : aisleInner ops i bi? (i + 1) rest with
    | error e => rw [hin] at h; exact Except.noConfusion h
    | ok head =>
      rw [hin] at h
      cases hout : aisleOuter ops (i + 1) rest with
      | error e => rw [hout] at h; exact Except.noConfusion h
      | ok tail =>
        rw [hout] at h
        injection h with h'
        subst h'
        rcases List.mem_append.mp hx with h1 | h2
        · exact aisleInner_kind ops i rest bi? (i + 1) head hin x h1
        · exact ih (i + 1) tail hout x h2

theorem boundaryLoop_kind (ops : GeoOps) (inset? : Option Feature) :
    ∀ (fs : List Feature) (i : ℕ) (l : List Issue),
      boundaryLoop ops inset? i fs = .ok l → ∀ x ∈ l, x.kind = .boundary := by
  intro fs
  induction fs with
  | nil =>
    intro i l h x hx
    rw [boundaryLoop] at h
    injection h with h'
    subst h'
    cases hx
  | cons f fs ih =>
    intro i l h x hx
    cases inset? with
    | none => rw [boundaryLoop] at h; exact Except.noConfusion h
    | some inset =>
      rw [boundaryLoop] at h
      cases hrec : boundaryLoop ops (some inset) (i + 1) fs with
      | error e => rw [hrec] at h; exact Except.noConfusion h
      | ok tail =>
        rw [hrec] at h
        injection h with h'
        subst h'
        rcases List.mem_append.mp hx with h1 | h2
        · by_cases hc : ops.booleanWithin f inset = true
          · rw [if_pos hc] at h1
            cases h1
          · rw [if_neg hc] at h1
            rcases List.mem_singleton.mp h1 with rfl
            rfl
        · exact ih (i + 1) tail hrec x h2

theorem turningPass_kind (ops : GeoOps) (site : Option Feature) (tr : ℚ)
    (l : List Issue) (h : turningPass ops site tr = .ok l) :
    ∀ x ∈ l, x.kind = .turning := by
  intro x hx
  rw [turningPass] at h
  cases hs : require site with
  | error e => rw [hs] at h; exact Except.noConfusion h
  | ok s =>
    rw [hs] at h
    injection h with h'
    subst h'
    by_cases hc : ops.booleanWithin (ops.circle (ops.centroid s) (metersToKm tr)) s = true
    · rw [if_pos hc] at hx
      cases hx
    · rw [if_neg hc] at hx
      rcases List.mem_singleton.mp hx with rfl
      rfl

/-- Decomposition of a successful `validateLayout` run into its four
components (the clash component is total; the other three come from their
threshold-guarded passes). -/
theorem validateLayout_ok (ops : GeoOps) (site : Option Feature) (blocks : FeatureColl)
    (mA bc tr : ℚ) (is : List Issue)
    (h : validateLayout ops site blocks mA bc tr = .ok is) :
    ∃ a b t,
      (if 0 < mA then aislePass ops blocks.features mA else .ok []) = .ok a ∧
      (if 0 < bc then boundaryPass ops site blocks.features bc else .ok []) = .ok b ∧
      (if 0 < tr then turningPass ops site tr else .ok []) = .ok t ∧
      is = clashPass ops blocks.features ++ a ++ b ++ t := by
  rw [validateLayout] at h
  cases hA : (if 0 < mA then aislePass ops blocks.features mA else Except.ok []) with
  | error e => rw [hA] at h; exact Except.noConfusion h
  | ok a =>
    rw [hA] at h
    cases hB : (if 0 < bc then boundaryPass ops site blocks.features bc else Except.ok []) with
    | error e => rw [hB] at h; exact Except.noConfusion h
    | ok b =>
      rw [hB] at h
      cases hT : (if 0 < tr then turningPass ops site tr else Except.ok []) with
      | error e => rw [hT] at h; exact Except.noConfusion h
      | ok t =>
        rw [hT] at h
        injection h with h'
        subst h'
        exact ⟨a, b, t, rfl, rfl, rfl, rfl⟩

/-- Kinds of the aisle component of `validateLayout`. -/
theorem aisleComp_kind (ops : GeoOps) (bs : List Feature) (mA : ℚ) (a : List Issue)
    (h : (if 0 < mA then aislePass ops bs mA else .ok []) = .ok a) :
    ∀ x ∈ a, x.kind = .aisle := by
  split at h
  · exact aisleOuter_kind ops _ 0 a h
  · injection h with h'
    subst h'
    intro x hx
    cases hx

/-- Kinds of the boundary component of `validateLayout`. -/
theorem boundaryComp_kind (ops : GeoOps) (site : Option Feature) (bs : List Feature)
    (bc : ℚ) (b : List Issue)
    (h : (if 0 < bc then boundaryPass ops site bs bc else .ok []) = .ok b) :
    ∀ x ∈ b, x.kind = .boundary := by
  split at h
  · rw [boundaryPass] at h
    cases hs : require site with
    | error e => rw [hs] at h; exact Except.noConfusion h
    | ok s =>
      rw [hs] at h
      exact boundaryLoop_kind ops _ bs 0 b h
  · injection h with h'
    subst h'
    intro x hx
    cases hx

/-- Kinds of the turning component of `validateLayout`. -/
theorem turningComp_kind (ops : GeoOps) (site : Option Feature) (tr : ℚ) (t : List Issue)
    (h : (if 0 < tr then turningPass ops site tr else .ok []) = .ok t) :
    ∀ x ∈ t, x.kind = .turning := by
  split at h
  · exact turningPass_kind ops site tr t h
  · injection h with h'
    subst h'
    intro x hx
    cases hx

/-! ### Aisle-check counting -/

/-- Whether a pair of blocks produces an aisle issue at threshold `m`: both
outward buffers exist, the buffers intersect, and their intersection is
non-null. -/
def aisleHit (ops : GeoOps) (m : ℚ) (f g : Feature) : Bool :=
  match ops.buffer f (m / 1000), ops.buffer g (m / 1000) with
  | some bi, some bj => ops.booleanIntersects bi bj && (ops.intersect bi bj).isSome
  | _, _ => false

/-- The number of ordered pairs `(i, j)`, `i < j`, of the block list that
are aisle hits at threshold `m`. -/
def pairHits (ops : GeoOps) (m : ℚ) : List Feature → ℕ
  | [] => 0
  | f :: rest => rest.countP (fun g => aisleHit ops m f g) + pairHits ops m rest

theorem aisleInner_len (ops : GeoOps) (m : ℚ) (f : Feature) :
    ∀ (gs : List Feature) (i j : ℕ) (l : List Issue),
      aisleInner ops i (ops.buffer f (m / 1000)) j
        (gs.map (fun g => ops.buffer g (m / 1000))) = .ok l →
      l.length = gs.countP (fun g => aisleHit ops m f g) := by
  intro gs
  induction gs with
  | nil =>
    intro i j l h
    simp only [List.map_nil] at h
    rw [aisleInner] at h
    injection h with h'
    subst h'
    rfl
  | cons g gs ih =>
    intro i j l h
    simp only [List.map_cons] at h
    cases hbf : ops.buffer f (m / 1000) with
    | none =>
      rw [hbf] at h
      rw [aisleInner] at h
      exact Except.noConfusion h
    | some bi =>
      cases hbg : ops.buffer g (m / 1000) with
      | none =>
        rw [hbf, hbg] at h
        rw [aisleInner] at h
        exact Except.noConfusion h
      | some bj =>
        rw [hbf, hbg] at h
        rw [aisleInner] at h
        cases hrec : aisleInner ops i (some bi) (j + 1)
            (gs.map (fun g => ops.buffer g (m / 1000))) with
        | error e => rw [hrec] at h; exact Except.noConfusion h
        | ok tail =>
          rw [hrec] at h
          injection h with h'
          subst h'
          rw [← hbf] at hrec
          rw [List.length_append, ih i (j + 1) tail hrec, List.countP_cons]
          simp only [aisleHit, hbf, hbg]
          by_cases hc : ops.booleanIntersects bi bj = true
          · cases hint : ops.intersect bi bj with
            | none => simp [hint, hc]
            | some inter =>
              simp only [hint, hc]
              simp [Nat.add_comm]
          · have hc' : ops.booleanIntersects bi bj = false := by
              cases hcc : ops.booleanIntersects bi bj
              · rfl
              · exact absurd hcc hc
            simp [hc']

theorem aisleOuter_len (ops : GeoOps) (m : ℚ) :
    ∀ (fs : List Feature) (i : ℕ) (l : List Issue),
      aisleOuter ops i (fs.map (fun g => ops.buffer g (m / 1000))) = .ok l →
      l.length = pairHits ops m fs := by
  intro fs
  induction fs with
  | nil =>
    intro i l h
    simp only [List.map_nil] at h
    rw [aisleOuter] at h
    injection h with h'
    subst h'
    rfl
  | cons f fs ih =>
    intro i l h
    simp only [List.map_cons] at h
    rw [aisleOuter] at h
    cases hin : aisleInner ops i (ops.buffer f (m / 1000)) (i + 1)
        (fs.map (fun g => ops.buffer g (m / 1000))) with
    | error e => rw [hin] at h; exact Except.noConfusion h
    | ok head =>
      rw [hin] at h
      cases hout : aisleOuter ops (i + 1) (fs.map (fun g => ops.buffer g (m / 1000))) with
      | error e => rw [hout] at h; exact Except.noConfusion h
      | ok tail =>
        rw [hout] at h
        injection h with h'
        subst h'
        rw [List.length_append, aisleInner_len ops m f fs i (i + 1) head hin,
          ih (i + 1) tail hout, pairHits]

theorem pairHits_mono (ops : GeoOps) (m1 m2 : ℚ) :
    ∀ fs : List Feature,
      (∀ f ∈ fs, ∀ g ∈ fs, aisleHit ops m1 f g = true → aisleHit ops m2 f g = true) →
      pairHits ops m1 fs ≤ pairHits ops m2 fs := by
  intro fs
  induction fs with
  | nil => intro _; exact Nat.le_refl 0
  | cons f fs ih =>
    intro h
    rw [pairHits, pairHits]
    refine Nat.add_le_add ?_ ?_
    · refine List.countP_mono_left ?_
      intro g hg hp
      exact h f (List.mem_cons_self f fs) g (List.mem_cons_of_mem f hg) hp
    · refine ih ?_
      intro a ha b hb hp
      exact h a (List.mem_cons_of_mem f ha) b (List.mem_cons_of_mem f hb) hp

/-- Claim C7 — for a fixed site and blocks, the number of aisle issues
reported by `validateLayout` is non-decreasing in `minAisle`: for
`0 ≤ m1 ≤ m2` (with the geometric monotonicity of Turf's outward buffering,
stated as the `hmono` hypothesis on the abstract operations: a pair whose
`m1`-buffers properly intersect also has properly intersecting
`m2`-buffers), the `m2` run reports at least as many aisle issues. -/
theorem validateLayout_aisle_monotone (ops : GeoOps) (site : Option Feature)
    (blocks : FeatureColl) (mA1 mA2 bc tr : ℚ) (is1 is2 : List Issue)
    (h0 : 0 ≤ mA1) (hm : mA1 ≤ mA2)
    (hmono : ∀ f ∈ blocks.features, ∀ g ∈ blocks.features,
      aisleHit ops mA1 f g = true → aisleHit ops mA2 f g = true)
    (h1 : validateLayout ops site blocks mA1 bc tr = .ok is1)
    (h2 : validateLayout ops site blocks mA2 bc tr = .ok is2) :
    is1.countP (fun x => x.kind == IssueKind.aisle) ≤
      is2.countP (fun x => x.kind == IssueKind.aisle) := by
  obtain ⟨a1, b1, t1, hA1, hB1, hT1, rfl⟩ :=
    validateLayout_ok ops site blocks mA1 bc tr is1 h1
  obtain ⟨a2, b2, t2, hA2, hB2, hT2, rfl⟩ :=
    validateLayout_ok ops site blocks mA2 bc tr is2 h2
  have hclash : (clashPass ops blocks.features).countP
      (fun x => x.kind == IssueKind.aisle) = 0 :=
    List.countP_eq_zero.mpr (fun x hx => by
      rw [clashOuter_kind ops blocks.features 0 x hx]
      decide)
  have hb1 : b1.countP (fun x => x.kind == IssueKind.aisle) = 0 :=
    List.countP_eq_zero.mpr (fun x hx => by
      rw [boundaryComp_kind ops site blocks.features bc b1 hB1 x hx]
      decide)
  have hb2 : b2.countP (fun x => x.kind == IssueKind.aisle) = 0 :=
    List.countP_eq_zero.mpr (fun x hx => by
      rw [boundaryComp_kind ops site blocks.features bc b2 hB2 x hx]
      decide)
  have ht1 : t1.countP (fun x => x.kind == IssueKind.aisle) = 0 :=
    List.countP_eq_zero.mpr (fun x hx => by
      rw [turningComp_kind ops site tr t1 hT1 x hx]
      decide)
  have ht2 : t2.countP (fun x => x.kind == IssueKind.aisle) = 0 :=
    List.countP_eq_zero.mpr (fun x hx => by
      rw [turningComp_kind ops site tr t2 hT2 x hx]
      decide)
  have ha1 : a1.countP (fun x => x.kind == IssueKind.aisle) = a1.length :=
    List.countP_eq_length.mpr (fun x hx => by
      rw [aisleComp_kind ops blocks.features mA1 a1 hA1 x hx]
      decide)
  have ha2 : a2.countP (fun x => x.kind == IssueKind.aisle) = a2.length :=
    List.countP_eq_length.mpr (fun x hx => by
      rw [aisleComp_kind ops blocks.features mA2 a2 hA2 x hx]
      decide)
  simp only [List.countP_append, hclash, hb1, hb2, ht1, ht2, ha1, ha2,
    Nat.zero_add, Nat.add_zero]
  by_cases hpos : 0 < mA1
  · have hpos2 : 0 < mA2 := lt_of_lt_of_le hpos hm
    rw [if_pos hpos] at hA1
    rw [if_pos hpos2] at hA2
    rw [aislePass] at hA1 hA2
    rw [aisleOuter_len ops mA1 blocks.features 0 a1 hA1,
      aisleOuter_len ops mA2 blocks.features 0 a2 hA2]
    exact pairHits_mono ops mA1 mA2 blocks.features hmono
  · rw [if_neg hpos] at hA1
    injection hA1 with h'
    subst h'
    exact Nat.zero_le _

/-! ### Remaining validator claims -/

/-- Claim C6 — for a block collection of exactly two blocks with identical
geometry, the clash check of `validateLayout` reports exactly one clash
issue, carrying both block indices (`0` and `1`) and the area of the full
rectangle (Turf's facts that a polygon intersects itself and that the
self-intersection is the polygon itself enter as the two hypotheses on the
abstract operations). -/
theorem validateLayout_clash_identical (ops : GeoOps) (site : Option Feature)
    (blk : Feature) (mA bc tr : ℚ) (is : List Issue)
    (hI : ops.booleanIntersects blk blk = true)
    (hX : ops.intersect blk blk = some blk)
    (hok : validateLayout ops site ⟨[blk, blk]⟩ mA bc tr = .ok is) :
    is.filter (fun x => x.kind == IssueKind.clash) =
      [{ kind := .clash, a := some 0, b := some 1,
         area := some (ops.area blk), geom := blk }] := by
  obtain ⟨a, b, t, hA, hB, hT, rfl⟩ :=
    validateLayout_ok ops site ⟨[blk, blk]⟩ mA bc tr is hok
  have hfa : a.filter (fun x => x.kind == IssueKind.clash) = [] :=
    List.filter_eq_nil_iff.mpr (fun x hx => by
      rw [aisleComp_kind ops _ mA a hA x hx]
      decide)
  have hfb : b.filter (fun x => x.kind == IssueKind.clash) = [] :=
    List.filter_eq_nil_iff.mpr (fun x hx => by
      rw [boundaryComp_kind ops site _ bc b hB x hx]
      decide)
  have hft : t.filter (fun x => x.kind == IssueKind.clash) = [] :=
    List.filter_eq_nil_iff.mpr (fun x hx => by
      rw [turningComp_kind ops site tr t hT x hx]
      decide)
  have hcl : clashPass ops [blk, blk] =
      [{ kind := .clash, a := some 0, b := some 1,
         area := some (ops.area blk), geom := blk }] := by
    simp [clashPass, clashOuter, clashInner, hI, hX]
  simp only [List.filter_append, hfa, hfb, hft, hcl]
  simp

/-- Fixture: the unit square block used for the C6 witness. -/
def blkFix6 : Feature := rectFeature 0 0 1 1

/-- Fixture: the clash issue list produced by the C6 witness run. -/
def clashFixList : List Issue :=
  [{ kind := .clash, a := some 0, b := some 1, area := some 1, geom := rectFeature 0 0 1 1 }]

/-- Witness for C6: two copies of the unit square on the planar instance
produce exactly one clash issue with the full square area `1`. -/
theorem validateLayout_clash_identical_witness :
    boxOps.booleanIntersects blkFix6 blkFix6 = true ∧
      boxOps.intersect blkFix6 blkFix6 = some blkFix6 ∧
      validateLayout boxOps none ⟨[blkFix6, blkFix6]⟩ 0 0 0 = .ok clashFixList ∧
      clashFixList.filter (fun x => x.kind == IssueKind.clash) =
        [{ kind := .clash, a := some 0, b := some 1,
           area := some (boxOps.area blkFix6), geom := blkFix6 }] := by
  have hI : boxOps.booleanIntersects blkFix6 blkFix6 = true := by
    with_unfolding_all rfl
  have hX : boxOps.intersect blkFix6 blkFix6 = some blkFix6 := by
    with_unfolding_all rfl
  have hV : validateLayout boxOps none ⟨[blkFix6, blkFix6]⟩ 0 0 0 = .ok clashFixList := by
    with_unfolding_all rfl
  exact ⟨hI, hX, hV,
    validateLayout_clash_identical boxOps none blkFix6 0 0 0 clashFixList hI hX hV⟩

/-- Claim C4, amended — the empty-input conditions return empty results
with no error, except in `validateLayout`: the turning check runs even with
an empty block collection (it can report an issue or, with a null site,
throw), and a positive boundary clearance dereferences the site; with
`turnRadius ≤ 0` and (`boundaryClearance ≤ 0` or a non-null site) an empty
block collection does give an empty issue list. -/
theorem emptyInputs_empty (ops : GeoOps) :
    (∀ types aw rot seed jit mb,
      generateBlocks ops ⟨none, types, aw, rot, seed, jit, mb⟩ = ⟨[]⟩) ∧
    (∀ sources cellM, generateHeatSquares ops none sources cellM = ⟨[]⟩) ∧
    (∀ site cellM, generateHeatSquares ops site [] cellM = ⟨[]⟩) ∧
    (∀ site mA bc tr, tr ≤ 0 → (bc ≤ 0 ∨ site ≠ none) →
      validateLayout ops site ⟨[]⟩ mA bc tr = .ok []) := by
  refine ⟨?_, ?_, ?_, ?_⟩
  · intro types aw rot seed jit mb
    rfl
  · intro sources cellM
    rfl
  · intro site cellM
    cases site with
    | none => rfl
    | some s => rfl
  · intro site mA bc tr htr hbc
    have hA : (if 0 < mA then aislePass ops ([] : List Feature) mA else Except.ok []) =
        Except.ok ([] : List Issue) := by
      split
      · rfl
      · rfl
    have hB : (if 0 < bc then boundaryPass ops site ([] : List Feature) bc
          else Except.ok []) = Except.ok ([] : List Issue) := by
      split
      · rename_i h0bc
        rcases hbc with h | h
        · exact absurd h0bc (not_lt.mpr h)
        · rcases site with _ | s
          · exact absurd rfl h
          · show boundaryLoop ops (ops.buffer s (-bc / 1000)) 0 ([] : List Feature) =
              Except.ok []
            cases ops.buffer s (-bc / 1000) with
            | none => rfl
            | some inset => rfl
      · rfl
    have hT : (if 0 < tr then turningPass ops site tr else Except.ok []) =
        Except.ok ([] : List Issue) := by
      rw [if_neg (not_lt.mpr htr)]
    rw [validateLayout]
    simp only [hA, hB, hT]
    rfl

/-- Witness for the amended C4: concrete empty-input runs on the planar
instance. -/
theorem emptyInputs_empty_witness :
    generateBlocks boxOps ⟨none, [⟨"t", 2000, 2000⟩], 20, 0, some 1, 0, 800⟩ = ⟨[]⟩ ∧
      generateHeatSquares boxOps none [⟨1, 1⟩] 10 = ⟨[]⟩ ∧
      generateHeatSquares boxOps (some siteFix) [] 10 = ⟨[]⟩ ∧
      validateLayout boxOps (some siteFix) ⟨[]⟩ 20 5 0 = .ok [] :=
  ⟨(emptyInputs_empty boxOps).1 _ _ _ _ _ _,
   (emptyInputs_empty boxOps).2.1 _ _,
   (emptyInputs_empty boxOps).2.2.1 _ _,
   (emptyInputs_empty boxOps).2.2.2 (some siteFix) 20 5 0 le_rfl (Or.inr (by simp))⟩

/-- Fixture: the turning issue reported on the empty-blocks counterexample
run (a 10 km turn-radius circle around the centroid of the 4-degree
site). -/
def turnIssueFix : Issue := { kind := .turning, geom := rectFeature (-8) (-8) 12 12 }

/-- Counterexample to claim C4 as stated: with an empty block collection
but a large positive `turnRadius`, `validateLayout` returns a (turning)
issue, not an empty list — the turning check does not depend on the
blocks. -/
theorem validateLayout_noBlocks_counterexample :
    validateLayout boxOps (some siteFix) ⟨[]⟩ 0 0 10000 = .ok [turnIssueFix] ∧
      ([turnIssueFix] : List Issue) ≠ [] :=
  ⟨by with_unfolding_all rfl, by simp⟩

/-- Claim C5, amended — in the clash and aisle checks a degenerate (null)
intersection is silently skipped as "no overlap" and no error is raised;
but in the boundary check a degenerate (collapsed to `undefined`) inward
buffer is not guarded: as soon as one block is tested against it,
`validateLayout` throws instead of skipping. -/
theorem degenerate_geometry_policy (ops : GeoOps) :
    (∀ f g, ops.intersect f g = none → clashPass ops [f, g] = []) ∧
    (∀ f g bi bj mA, ops.buffer f (mA / 1000) = some bi →
      ops.buffer g (mA / 1000) = some bj → ops.intersect bi bj = none →
      aislePass ops [f, g] mA = .ok []) ∧
    (∀ s bs bc, 0 < bc → ops.buffer s (-bc / 1000) = none → bs ≠ [] →
      validateLayout ops (some s) ⟨bs⟩ 0 bc 0 = .error .nullGeometry) := by
  refine ⟨?_, ?_, ?_⟩
  · intro f g hX
    simp [clashPass, clashOuter, clashInner, hX]
  · intro f g bi bj mA hbf hbg hX
    rw [aislePass]
    simp only [List.map_cons, List.map_nil, hbf, hbg]
    simp [aisleOuter, aisleInner, hX]
  · intro s bs bc h0 hbuf hne
    rcases bs with _ | ⟨b, rest⟩
    · exact absurd rfl hne
    · rw [validateLayout]
      have hA : (if (0 : ℚ) < 0 then
            aislePass ops (FeatureColl.features ⟨b :: rest⟩) 0 else Except.ok []) =
          Except.ok ([] : List Issue) := by
        rw [if_neg (lt_irrefl 0)]
      have hB : (if 0 < bc then
            boundaryPass ops (some s) (FeatureColl.features ⟨b :: rest⟩) bc
          else Except.ok []) = Except.error GeoErr.nullGeometry := by
        rw [if_pos h0]
        show boundaryLoop ops (ops.buffer s (-bc / 1000)) 0 (b :: rest) =
          Except.error GeoErr.nullGeometry
        rw [hbuf, boundaryLoop]
      simp only [hA, hB]

/-- Witness for the amended C5: concrete degenerate-geometry runs on the
planar instance — disjoint unit squares give a null clash intersection and
no issue; touching aisle buffers give a null intersection and no issue; a
collapsed inward buffer of the site makes the boundary check throw. -/
theorem degenerate_geometry_policy_witness :
    clashPass boxOps [rectFeature 0 0 1 1, rectFeature 3 3 4 4] = [] ∧
      aislePass boxOps [rectFeature 0 0 1 1, rectFeature 3 3 4 4] 1000 = .ok [] ∧
      validateLayout boxOps (some siteFix) ⟨[rectFeature 1 1 2 2]⟩ 0 8000 0 =
        .error .nullGeometry := by
  refine ⟨?_, ?_, ?_⟩
  · exact (degenerate_geometry_policy boxOps).1 _ _ (by with_unfolding_all rfl)
  · exact (degenerate_geometry_policy boxOps).2.1 _ _
      (rectFeature (-1) (-1) 2 2) (rectFeature 2 2 5 5) 1000
      (by with_unfolding_all rfl) (by with_unfolding_all rfl) (by with_unfolding_all rfl)
  · exact (degenerate_geometry_policy boxOps).2.2 siteFix [rectFeature 1 1 2 2] 8000
      (by norm_num) (by with_unfolding_all rfl) (by simp)

/-- Counterexample to claim C5 as stated: a collapsed inward buffer in the
boundary check is not "silently skipped" — the run signals an error
(`turf.booleanWithin` on `undefined` throws). -/
theorem validateLayout_collapsedBuffer_counterexample :
    validateLayout boxOps (some siteFix) ⟨[rectFeature 1 1 2 2]⟩ 0 8000 0 =
      .error .nullGeometry := by
  with_unfolding_all rfl

/-- Fixture: two unit squares three chart-degrees apart, used by the C7
witness (buffers at `minAisle = 1000` m touch without a proper
intersection; at `2000` m they properly overlap). -/
def aisleFixBlocks : FeatureColl := ⟨[rectFeature 0 0 1 1, rectFeature 3 3 4 4]⟩

/-- Fixture: the single aisle issue of the C7 witness run at
`minAisle = 2000`. -/
def aisleFixIssue : Issue :=
  { kind := .aisle, a := some 0, b := some 1, geom := rectFeature 1 1 3 3 }

/-- Witness for C7: on the planar instance, raising `minAisle` from 1000 m
(no aisle issue) to 2000 m (one aisle issue) does not decrease the count. -/
theorem validateLayout_aisle_monotone_witness :
    (0 : ℚ) ≤ 1000 ∧ (1000 : ℚ) ≤ 2000 ∧
      (∀ f ∈ aisleFixBlocks.features, ∀ g ∈ aisleFixBlocks.features,
        aisleHit boxOps 1000 f g = true → aisleHit boxOps 2000 f g = true) ∧
      validateLayout boxOps none aisleFixBlocks 1000 0 0 = .ok [] ∧
      validateLayout boxOps none aisleFixBlocks 2000 0 0 = .ok [aisleFixIssue] ∧
      ([] : List Issue).countP (fun x => x.kind == IssueKind.aisle) ≤
        [aisleFixIssue].countP (fun x => x.kind == IssueKind.aisle) := by
  have h0 : (0 : ℚ) ≤ 1000 := by norm_num
  have hm : (1000 : ℚ) ≤ 2000 := by norm_num
  have hmono : ∀ f ∈ aisleFixBlocks.features, ∀ g ∈ aisleFixBlocks.features,
      aisleHit boxOps 1000 f g = true → aisleHit boxOps 2000 f g = true := by
    intro f hf g hg
    fin_cases hf <;> fin_cases hg <;> intro hp
    · with_unfolding_all rfl
    · rw [(by with_unfolding_all rfl :
        aisleHit boxOps 1000 (rectFeature 0 0 1 1) (rectFeature 3 3 4 4) = false)] at hp
      exact Bool.noConfusion hp
    · rw [(by with_unfolding_all rfl :
        aisleHit boxOps 1000 (rectFeature 3 3 4 4) (rectFeature 0 0 1 1) = false)] at hp
      exact Bool.noConfusion hp
    · with_unfolding_all rfl
  have h1 : validateLayout boxOps none aisleFixBlocks 1000 0 0 = .ok [] := by
    with_unfolding_all rfl
  have h2 : validateLayout boxOps none aisleFixBlocks 2000 0 0 = .ok [aisleFixIssue] := by
    with_unfolding_all rfl
  exact ⟨h0, hm, hmono, h1, h2,
    validateLayout_aisle_monotone boxOps none aisleFixBlocks 1000 2000 0 0 []
      [aisleFixIssue] h0 hm hmono h1 h2⟩

/-- Claim C8 — `gridCenters`, instantiated at the spec-modelled grid
sampler operations, returns exactly the points of the lattice anchored at
the polygon's bounding-box minimum corner (spacing `step` metres, converted
by the fixed local degree scales) that lie strictly inside the polygon: in
its even-odd interior and on no boundary edge. -/
theorem gridCenters_strictly_inside (kx ky step : ℚ) (poly : Feature) (p : LngLat) :
    p ∈ gridCenters (specOps kx ky) poly step ↔
      (p ∈ latticeOfBBox (bboxOf poly) (metersToKm step * kx) (metersToKm step * ky) ∧
        onPolyBoundary p poly = false ∧ insideEvenOdd p poly = true) := by
  simp [gridCenters, specOps, strictlyInside, List.mem_filter, Bool.and_eq_true,
    Bool.not_eq_true', and_assoc]

/-- Claim C10 — `snapFeatureToGrid` on a feature whose geometry is neither
`Polygon` nor `MultiPolygon` returns the (deep-copied) feature unchanged,
for every spacing, origin and orthogonal flag. -/
theorem snapFeatureToGrid_frame (ops : GeoOps) (f : Feature) (spacingM : ℚ)
    (origin : LngLat) (orthogonal : Bool)
    (h1 : f.geometry.tag ≠ GeomTag.polygon)
    (h2 : f.geometry.tag ≠ GeomTag.multiPolygon) :
    snapFeatureToGrid ops f spacingM origin orthogonal = f := by
  rcases f with ⟨g, props⟩
  cases g with
  | point c => rfl
  | lineString cs => rfl
  | polygon rings => exact absurd rfl h1
  | multiPolygon ps => exact absurd rfl h2
  | geometryCollection => rfl

/-- Fixture: a line feature used by the C10 witness. -/
def lineFix : Feature :=
  { geometry := .lineString [⟨0, 0⟩, ⟨1, 2⟩, ⟨3, 1⟩], properties := [("role", .str "x")] }

/-- Witness for C10: a concrete `LineString` feature passes through
`snapFeatureToGrid` unchanged. -/
theorem snapFeatureToGrid_frame_witness :
    lineFix.geometry.tag ≠ GeomTag.polygon ∧
      lineFix.geometry.tag ≠ GeomTag.multiPolygon ∧
      snapFeatureToGrid boxOps lineFix 5 ⟨0, 0⟩ true = lineFix :=
  ⟨by decide, by decide,
    snapFeatureToGrid_frame boxOps lineFix 5 ⟨0, 0⟩ true (by decide) (by decide)⟩

end LayoutApp
